import Mathlib

/-!
Verification of the FavesRealmTest repository against its specification.

The repository under `src/` contains `App.tsx` (the React component wiring the
UI to a Realm store) and one unnamed serverless function file containing
`addition`.  The store engine itself (transactions, live handles, observable
collections, lifecycle) is not part of `src/` — `App.tsx` only calls into it —
so the store is modelled from the specification, and `addition` is embedded
directly from its source.
-/

namespace FavesRealm

/-! ## JavaScript values and the `addition` remote function (src/unnamed/part_000) -/

/-- A small universe of JavaScript primitive values: numbers (modelled as
integers), strings and booleans.  `typeof` distinguishes exactly these. -/
inductive JSVal where
  | num (n : Int)
  | str (s : String)
  | boolV (b : Bool)
  deriving DecidableEq, Repr

/-- JavaScript `typeof` on the modelled value universe. -/
def typeofV : JSVal → String
  | .num _ => "number"
  | .str _ => "string"
  | .boolV _ => "boolean"

/-- JavaScript `ToNumber` coercion restricted to non-string operands (the only
place the model needs it). -/
def toNumberV : JSVal → Int
  | .num n => n
  | .str _ => 0
  | .boolV b => if b then 1 else 0

/-- JavaScript `ToString` coercion for the `+` operator. -/
def toStringV : JSVal → String
  | .num n => toString n
  | .str s => s
  | .boolV b => if b then "true" else "false"

/-- Whether a value is a string, deciding which branch of `+` applies. -/
def isStr : JSVal → Bool
  | .str _ => true
  | _ => false

/-- JavaScript binary `+`: string concatenation when either operand is a
string, otherwise numeric addition after `ToNumber` coercion. -/
def jsAdd (a b : JSVal) : JSVal :=
  if isStr a || isStr b then .str (toStringV a ++ toStringV b)
  else .num (toNumberV a + toNumberV b)

/-- Embedding of `addition` from src/unnamed/part_000:
`if (typeof first !== typeof second && typeof first !== "number") throw
new Error("This function takes 2 numbers"); return first + second;`. -/
def addition (first second : JSVal) : Except String JSVal :=
  if typeofV first ≠ typeofV second ∧ typeofV first ≠ "number" then
    .error "This function takes 2 numbers"
  else
    .ok (jsAdd first second)

/-! ## The Task record and its ordering -/

/-- Modelled from the spec: the `Task` record of the schema
`Task{id: key, description: string, isComplete: bool=false, createdAt:
timestamp}` declared in `app/models/Task` (not under `src/`). -/
structure TaskRec where
  id : Nat
  description : String
  isComplete : Bool
  createdAt : Nat
  deriving DecidableEq, Repr

/-- Modelled from the spec: the deterministic collection order — creation
timestamp ascending, ties broken by primary key. -/
def taskLE (a b : TaskRec) : Prop :=
  a.createdAt < b.createdAt ∨ (a.createdAt = b.createdAt ∧ a.id ≤ b.id)

instance : DecidableRel taskLE := fun a b =>
  inferInstanceAs (Decidable (a.createdAt < b.createdAt ∨
    (a.createdAt = b.createdAt ∧ a.id ≤ b.id)))

instance : IsTotal TaskRec taskLE where
  total a b := by
    unfold taskLE
    rcases Nat.lt_trichotomy a.createdAt b.createdAt with h | h | h
    · exact Or.inl (Or.inl h)
    · rcases Nat.le_total a.id b.id with h2 | h2
      · exact Or.inl (Or.inr ⟨h, h2⟩)
      · exact Or.inr (Or.inr ⟨h.symm, h2⟩)
    · exact Or.inr (Or.inl h)

instance : IsTrans TaskRec taskLE where
  trans a b c hab hbc := by
    unfold taskLE at *
    rcases hab with h1 | ⟨h1, h1i⟩ <;> rcases hbc with h2 | ⟨h2, h2i⟩
    · exact Or.inl (h1.trans h2)
    · exact Or.inl (h2 ▸ h1)
    · exact Or.inl (h1 ▸ h2)
    · exact Or.inr ⟨h1.trans h2, h1i.trans h2i⟩

/-- Modelled from the spec: the deterministic sort used by materialization
(the engine behind `.objects('Task').sorted('createdAt')` in App.tsx). -/
def sortTasks (l : List TaskRec) : List TaskRec :=
  List.insertionSort taskLE l

/-! ## The store: state, errors and operations (modelled from the spec) -/

/-- Modelled from the spec: the error taxonomy of §7. -/
inductive StoreError where
  | ValidationError
  | NotInTransactionError
  | ConcurrencyError
  | InvalidHandleError
  | StoreClosedError
  deriving DecidableEq, Repr

/-- Modelled from the spec: a registered collection listener, recording the
materializations delivered to its callback, oldest first. -/
structure Listener where
  lid : Nat
  log : List (List TaskRec)
  deriving DecidableEq, Repr

/-- Modelled from the spec: the store state — open flag, committed live
records, the pending record set of the at-most-one open transaction, and the
listeners registered on the Task collection. -/
structure Store where
  isOpen : Bool
  records : List TaskRec
  txn : Option (List TaskRec)
  listeners : List Listener
  nextLid : Nat
  deriving DecidableEq, Repr

/-- Modelled from the spec: materialization recomputes the projection from the
store's current committed record set, sorted deterministically. -/
def materialize (s : Store) : List TaskRec :=
  sortTasks s.records

/-- Modelled from the spec: `beginTransaction` fails with `ConcurrencyError`
if another transaction is already open, `StoreClosedError` after close;
otherwise it snapshots the committed records as the pending set. -/
def beginTransaction (s : Store) : Except StoreError Store :=
  if s.isOpen = false then .error .StoreClosedError
  else
    match s.txn with
    | some _ => .error .ConcurrencyError
    | none => .ok { s with txn := some s.records }

/-- Modelled from the spec: create a record inside the open transaction; the
mutation only touches the pending set and fails with `NotInTransactionError`
outside a transaction. -/
def createRecord (s : Store) (r : TaskRec) : Except StoreError Store :=
  match s.txn with
  | none => .error .NotInTransactionError
  | some pend => .ok { s with txn := some (pend ++ [r]) }

/-- Modelled from the spec: a single-field write; the primary key is not
writable (primary keys are immutable once assigned). -/
inductive FieldWrite where
  | setDescription (v : String)
  | setIsComplete (v : Bool)
  | setCreatedAt (v : Nat)
  deriving DecidableEq, Repr

/-- Apply a field write to one record. -/
def applyFieldWrite (w : FieldWrite) (r : TaskRec) : TaskRec :=
  match w with
  | .setDescription v => { r with description := v }
  | .setIsComplete v => { r with isComplete := v }
  | .setCreatedAt v => { r with createdAt := v }

/-- Modelled from the spec: write a field of the record with primary key `pk`
inside the open transaction; `InvalidHandleError` if no such record,
`NotInTransactionError` outside a transaction. -/
def updateRecord (s : Store) (pk : Nat) (w : FieldWrite) : Except StoreError Store :=
  match s.txn with
  | none => .error .NotInTransactionError
  | some pend =>
    if pend.any (fun r => r.id = pk) then
      .ok { s with
        txn := some (pend.map (fun r => if r.id = pk then applyFieldWrite w r else r)) }
    else .error .InvalidHandleError

/-- Modelled from the spec: delete the record with primary key `pk` inside the
open transaction. -/
def deleteRecord (s : Store) (pk : Nat) : Except StoreError Store :=
  match s.txn with
  | none => .error .NotInTransactionError
  | some pend =>
    if pend.any (fun r => r.id = pk) then
      .ok { s with txn := some (pend.filter (fun r => r.id ≠ pk)) }
    else .error .InvalidHandleError

/-- Modelled from the spec: one mutation of a transaction body — create,
field-update or delete. -/
inductive Mutation where
  | create (r : TaskRec)
  | update (pk : Nat) (w : FieldWrite)
  | delete (pk : Nat)
  deriving DecidableEq, Repr

/-- Dispatch one mutation to the corresponding store operation. -/
def applyMutation (s : Store) (m : Mutation) : Except StoreError Store :=
  match m with
  | .create r => createRecord s r
  | .update pk w => updateRecord s pk w
  | .delete pk => deleteRecord s pk

/-- Modelled from the spec: one step of a transaction body — either a mutation
or an error raised by the body itself. -/
inductive TxnStep where
  | mutate (m : Mutation)
  | raiseErr (e : StoreError)
  deriving DecidableEq, Repr

/-- Modelled from the spec: run a transaction body synchronously; the first
error (raised directly or by a failing mutation) stops the body. -/
def runBody (s : Store) : List TxnStep → Except StoreError Store
  | [] => .ok s
  | .raiseErr e :: _ => .error e
  | .mutate m :: rest =>
    match applyMutation s m with
    | .error e => .error e
    | .ok s2 => runBody s2 rest

/-- Modelled from the spec: the single commit/notify pipeline — install the
new committed record set and, when the materialized result changed, deliver
the fresh materialization to every registered listener exactly once. -/
def notifyCommit (s : Store) (newRecs : List TaskRec) : Store :=
  { s with
    records := newRecs
    listeners :=
      if sortTasks newRecs = materialize s then s.listeners
      else s.listeners.map (fun l => { l with log := l.log ++ [sortTasks newRecs] }) }

/-- Modelled from the spec: `realm.write(fn)` — begin a transaction (failing
with `StoreClosedError` after close and `ConcurrencyError` when one is already
open), run the body; an error aborts and re-raises, leaving the store exactly
as before; success commits atomically through the notify pipeline. -/
def write (s : Store) (body : List TxnStep) : Except StoreError Unit × Store :=
  if s.isOpen = false then (.error .StoreClosedError, s)
  else
    match s.txn with
    | some _ => (.error .ConcurrencyError, s)
    | none =>
      match runBody { s with txn := some s.records } body with
      | .error e => (.error e, s)
      | .ok s2 => (.ok (), notifyCommit s (s2.txn.getD s.records))

/-- Modelled from the spec: a remote-origin sync delta is folded into the same
commit/notification pipeline as a local commit. -/
def applyRemoteDelta (s : Store) (newRecs : List TaskRec) : Store :=
  if s.isOpen then notifyCommit s newRecs else s

/-- Fold a sequence of remote-origin commits over the store. -/
def runDeltas (s : Store) (cs : List (List TaskRec)) : Store :=
  cs.foldl applyRemoteDelta s

/-- Modelled from the spec: `addListener` registers a callback and invokes it
once immediately with the current materialization. -/
def addListener (s : Store) : Nat × Store :=
  (s.nextLid,
   { s with
     nextLid := s.nextLid + 1
     listeners := s.listeners ++ [{ lid := s.nextLid, log := [materialize s] }] })

/-- Modelled from the spec: reading through a live handle identified by its
primary key — latest committed value, `InvalidHandleError` once the record is
deleted, `StoreClosedError` after close. -/
def readRecord (s : Store) (pk : Nat) : Except StoreError TaskRec :=
  if s.isOpen = false then .error .StoreClosedError
  else
    match s.records.find? (fun r => r.id = pk) with
    | none => .error .InvalidHandleError
    | some r => .ok r

/-- Modelled from the spec: closing the store invalidates every derived handle
and collection. -/
def closeStore (s : Store) : Store :=
  { s with isOpen := false }

/-- Modelled from the spec: `generateDefaults` for the Task schema — the
caller supplies the description; `id` and `createdAt` come from the
schema-declared generators (random identifier, timestamp-now), `isComplete`
defaults to `false`; a missing (empty) description has no generator and fails
with `ValidationError`. -/
def generateDefaults (description : String) (now freshId : Nat) :
    Except StoreError TaskRec :=
  if description = "" then .error .ValidationError
  else .ok { id := freshId, description := description, isComplete := false, createdAt := now }

/-- The component-level state of App.tsx: the `realmReference` ref and the
`tasks` React state. -/
structure AppState where
  realmRef : Option Store
  tasks : List TaskRec
  deriving DecidableEq, Repr

/-- Embedding of the cleanup function of App.tsx (lines 122-131): if the realm
reference is set, close the realm, null the reference and empty the task
list; otherwise do nothing. -/
def cleanup (a : AppState) : AppState :=
  match a.realmRef with
  | some _ => { realmRef := none, tasks := [] }
  | none => a

/-- Expected listener log growth over a sequence of commits: the fresh
materialization is appended exactly when it differs from the previous one. -/
def changedMats (m : List TaskRec) : List (List TaskRec) → List (List TaskRec)
  | [] => []
  | c :: cs =>
    if sortTasks c = m then changedMats m cs
    else sortTasks c :: changedMats (sortTasks c) cs

/-! ## Helper lemmas -/

/-- Deleting the record with primary key `p` from a record list with distinct
primary keys removes exactly one element. -/
theorem length_filter_erase (l : List TaskRec) (r : TaskRec) (p : Nat)
    (hnd : (l.map TaskRec.id).Nodup) (hmem : r ∈ l) (hid : r.id = p) :
    (l.filter (fun x => x.id ≠ p)).length + 1 = l.length := by
  induction l with
  | nil => cases hmem
  | cons a l ih =>
    rw [List.map_cons, List.nodup_cons] at hnd
    rcases List.mem_cons.mp hmem with h | h
    · subst h
      have hall : l.filter (fun x => x.id ≠ p) = l := by
        rw [List.filter_eq_self]
        intro x hx
        simp only [ne_eq, decide_not, Bool.not_eq_eq_eq_not, Bool.not_true,
          decide_eq_false_iff_not]
        intro hxp
        exact hnd.1 (List.mem_map.mpr ⟨x, hx, hxp.trans hid.symm⟩)
      rw [List.filter_cons, if_neg (by simp [hid]), hall, List.length_cons]
    · have hap : ¬ a.id = p := by
        intro hap
        exact hnd.1 (List.mem_map.mpr ⟨r, h, hid.trans hap.symm⟩)
      rw [List.filter_cons, if_pos (by simp [hap]), List.length_cons,
        List.length_cons, ← ih hnd.2 h]

/-- Ordered insertion commutes with a map that does not disturb the sort key
(creation timestamp) or the primary key. -/
theorem orderedInsert_map_congr (g : TaskRec → TaskRec)
    (hg : ∀ x, (g x).createdAt = x.createdAt ∧ (g x).id = x.id)
    (a : TaskRec) (l : List TaskRec) :
    List.orderedInsert taskLE (g a) (l.map g) =
      (List.orderedInsert taskLE a l).map g := by
  induction l with
  | nil => rfl
  | cons b l ih =>
    have hiff : taskLE (g a) (g b) ↔ taskLE a b := by
      unfold taskLE
      rw [(hg a).1, (hg a).2, (hg b).1, (hg b).2]
    simp only [List.map_cons, List.orderedInsert]
    by_cases h : taskLE a b
    · rw [if_pos (hiff.mpr h), if_pos h, List.map_cons, List.map_cons]
    · rw [if_neg (fun hc => h (hiff.mp hc)), if_neg h, List.map_cons, ih]

/-- The deterministic sort commutes with a map that preserves the creation
timestamp and the primary key of every record. -/
theorem sortTasks_map_congr (g : TaskRec → TaskRec)
    (hg : ∀ x, (g x).createdAt = x.createdAt ∧ (g x).id = x.id)
    (l : List TaskRec) :
    sortTasks (l.map g) = (sortTasks l).map g := by
  induction l with
  | nil => rfl
  | cons b l ih =>
    unfold sortTasks at *
    simp only [List.map_cons, List.insertionSort]
    rw [ih, orderedInsert_map_congr g hg]

/-! ## Theorems -/

/-- C10: `addition` throws "This function takes 2 numbers" iff its arguments
have different `typeof` and the first is not a number; for same-type arguments
and for any call whose first argument is a number it returns `first + second`,
which on two strings is concatenation, not numeric addition. -/
theorem addition_throw_iff (a b : JSVal) :
    (addition a b = .error "This function takes 2 numbers" ↔
      typeofV a ≠ typeofV b ∧ typeofV a ≠ "number") ∧
    (typeofV a = typeofV b → addition a b = .ok (jsAdd a b)) ∧
    (typeofV a = "number" → addition a b = .ok (jsAdd a b)) ∧
    (∀ s t : String, jsAdd (.str s) (.str t) = .str (s ++ t)) := by
  refine ⟨?_, ?_, ?_, fun s t => rfl⟩
  · unfold addition
    split_ifs with h
    · simp [h]
    · simp [h]
  · intro h
    unfold addition
    rw [if_neg (fun hc => hc.1 h)]
  · intro h
    unfold addition
    rw [if_neg (fun hc => hc.2 h)]

/-- Witness for C10 at two strings: same `typeof`, so no throw, and the result
is string concatenation. -/
theorem addition_throw_iff_witness :
    typeofV (JSVal.str "a") = typeofV (JSVal.str "b") ∧
    addition (.str "a") (.str "b") = .ok (jsAdd (.str "a") (.str "b")) :=
  ⟨rfl, (addition_throw_iff (.str "a") (.str "b")).2.1 rfl⟩

/-- C1: a transaction body that raises an error aborts the transaction, the
error is re-raised synchronously to the caller, and the store is left exactly
as before the transaction began — in particular materialization is unchanged —
for any number and kind of attempted mutations inside the body. -/
theorem write_abort_restores (s : Store) (body : List TxnStep) (e : StoreError)
    (hopen : s.isOpen = true) (hno : s.txn = none)
    (herr : runBody { s with txn := some s.records } body = .error e) :
    write s body = (.error e, s) ∧ materialize (write s body).2 = materialize s := by
  have h1 : write s body = (.error e, s) := by
    unfold write
    rw [hopen] at herr
    rw [hopen, hno, herr]
    rfl
  exact ⟨h1, by rw [h1]⟩

/-- Witness for C1: a body that creates a record and then raises aborts and
leaves a concrete one-record store untouched. -/
theorem write_abort_restores_witness :
    write { isOpen := true, records := [{ id := 1, description := "buy milk", isComplete := false, createdAt := 0 }], txn := none, listeners := [], nextLid := 0 }
      [.mutate (.create { id := 2, description := "x", isComplete := false, createdAt := 1 }), .raiseErr .ValidationError] =
      (.error .ValidationError,
       { isOpen := true, records := [{ id := 1, description := "buy milk", isComplete := false, createdAt := 0 }], txn := none, listeners := [], nextLid := 0 }) ∧
    materialize (write { isOpen := true, records := [{ id := 1, description := "buy milk", isComplete := false, createdAt := 0 }], txn := none, listeners := [], nextLid := 0 }
      [.mutate (.create { id := 2, description := "x", isComplete := false, createdAt := 1 }), .raiseErr .ValidationError]).2 =
      materialize { isOpen := true, records := [{ id := 1, description := "buy milk", isComplete := false, createdAt := 0 }], txn := none, listeners := [], nextLid := 0 } :=
  write_abort_restores _ _ _ rfl rfl rfl

/-- C2: with a transaction already open, beginning a second (nested or
reentrant) transaction fails with `ConcurrencyError` — `write` rejects it and
leaves the store untouched — and no in-transaction mutation changes the
committed records, so nothing becomes visible without its own commit. -/
theorem nested_transaction_rejected (s : Store) (pend : List TaskRec)
    (body : List TxnStep) (hopen : s.isOpen = true) (htxn : s.txn = some pend) :
    beginTransaction s = .error .ConcurrencyError ∧
    write s body = (.error .ConcurrencyError, s) ∧
    (∀ m s2, applyMutation s m = .ok s2 →
      s2.records = s.records ∧ materialize s2 = materialize s) := by
  refine ⟨?_, ?_, ?_⟩
  · unfold beginTransaction
    rw [hopen, htxn]
    rfl
  · unfold write
    rw [hopen, htxn]
    rfl
  · intro m s2 hm
    have hrec : s2.records = s.records := by
      cases m with
      | create r =>
        simp only [applyMutation, createRecord, htxn, Except.ok.injEq] at hm
        rw [← hm]
      | update pk w =>
        simp only [applyMutation, updateRecord, htxn] at hm
        split_ifs at hm with h
        simp only [Except.ok.injEq] at hm
        rw [← hm]
      | delete pk =>
        simp only [applyMutation, deleteRecord, htxn] at hm
        split_ifs at hm with h
        simp only [Except.ok.injEq] at hm
        rw [← hm]
    exact ⟨hrec, by unfold materialize; rw [hrec]⟩

/-- Witness for C2 on a concrete open store with an open transaction: the
nested begin and the nested write both fail with `ConcurrencyError`, and a
create inside the transaction leaves the committed records unchanged. -/
theorem nested_transaction_rejected_witness :
    beginTransaction { isOpen := true, records := [], txn := some [], listeners := [], nextLid := 0 } = .error .ConcurrencyError ∧
    write { isOpen := true, records := [], txn := some [], listeners := [], nextLid := 0 } [] =
      (.error .ConcurrencyError, { isOpen := true, records := [], txn := some [], listeners := [], nextLid := 0 }) ∧
    (∀ m s2, applyMutation { isOpen := true, records := [], txn := some [], listeners := [], nextLid := 0 } m = .ok s2 →
      s2.records = Store.records { isOpen := true, records := [], txn := some [], listeners := [], nextLid := 0 } ∧
      materialize s2 = materialize { isOpen := true, records := [], txn := some [], listeners := [], nextLid := 0 }) :=
  nested_transaction_rejected _ [] [] rfl rfl

/-- C8: `generateDefaults` fails with `ValidationError` exactly when the
required description is missing (empty) — it has no schema generator — and on
success the record carries the supplied description plus the generated
identifier, the generated timestamp and the default `isComplete := false`;
it is a pure function of these inputs. -/
theorem generateDefaults_spec (d : String) (now fid : Nat) :
    (generateDefaults d now fid = .error .ValidationError ↔ d = "") ∧
    (∀ r, generateDefaults d now fid = .ok r →
      r.id = fid ∧ r.description = d ∧ r.isComplete = false ∧ r.createdAt = now) := by
  constructor
  · unfold generateDefaults
    split_ifs with h
    · simp [h]
    · simp [h]
  · intro r hr
    unfold generateDefaults at hr
    split_ifs at hr with h
    cases hr
    exact ⟨rfl, rfl, rfl, rfl⟩

/-- Witness for C8: defaults generated for description "buy milk" with
timestamp 5 and identifier 1. -/
theorem generateDefaults_spec_witness :
    TaskRec.id { id := 1, description := "buy milk", isComplete := false, createdAt := 5 } = 1 ∧
    TaskRec.description { id := 1, description := "buy milk", isComplete := false, createdAt := 5 } = "buy milk" ∧
    TaskRec.isComplete { id := 1, description := "buy milk", isComplete := false, createdAt := 5 } = false ∧
    TaskRec.createdAt { id := 1, description := "buy milk", isComplete := false, createdAt := 5 } = 5 :=
  (generateDefaults_spec "buy milk" 5 1).2 _ rfl

/-- C9: the close/cleanup path is idempotent — any repetition of `cleanup`
equals a single call, the first call nulls the realm reference and empties the
task list — and once the store is closed, reads through handles and new write
transactions fail with `StoreClosedError`; closing an already closed store is
a no-op. -/
theorem cleanup_idempotent (a : AppState) (st : Store) (ts : List TaskRec)
    (pk : Nat) (body : List TxnStep) :
    cleanup (cleanup a) = cleanup a ∧
    cleanup { realmRef := some st, tasks := ts } = { realmRef := none, tasks := [] } ∧
    readRecord (closeStore st) pk = .error .StoreClosedError ∧
    write (closeStore st) body = (.error .StoreClosedError, closeStore st) ∧
    closeStore (closeStore st) = closeStore st := by
  refine ⟨?_, rfl, rfl, rfl, rfl⟩
  cases a with
  | mk ref ts2 => cases ref <;> rfl

/-- C3: materialization returns all live records — it is a permutation of the
committed record set — sorted by creation timestamp ascending with ties broken
by primary key, so records with equal `createdAt` appear in primary-key
order. -/
theorem materialize_sorted (s : Store) :
    (materialize s).Perm s.records ∧
    List.Sorted taskLE (materialize s) ∧
    List.Pairwise (fun a b : TaskRec => a.createdAt = b.createdAt → a.id ≤ b.id)
      (materialize s) := by
  refine ⟨List.perm_insertionSort taskLE s.records,
    List.sorted_insertionSort taskLE s.records, ?_⟩
  refine (List.sorted_insertionSort taskLE s.records).imp ?_
  intro a b hab heq
  rcases hab with h1 | ⟨_, h2⟩
  · omega
  · exact h2

/-- C4: materialization is deterministic (two materializations of the same
state are identical) and after each commit — remote-origin or a successful
local write — it equals the deterministic sort of the then-current live
record set, never a stale or reordered result. -/
theorem materialize_fresh_after_commit (s s2 : Store) (c : List TaskRec)
    (body : List TxnStep) (hopen : s.isOpen = true) (hno : s.txn = none)
    (hbody : runBody { s with txn := some s.records } body = .ok s2) :
    materialize s = sortTasks s.records ∧
    (applyRemoteDelta s c).records = c ∧
    materialize (applyRemoteDelta s c) = sortTasks c ∧
    (write s body).2.records = s2.txn.getD s.records ∧
    materialize (write s body).2 = sortTasks (s2.txn.getD s.records) := by
  have hw : write s body = (.ok (), notifyCommit s (s2.txn.getD s.records)) := by
    unfold write
    rw [hopen] at hbody
    rw [hopen, hno, hbody]
    rfl
  have hd : applyRemoteDelta s c = notifyCommit s c := by
    unfold applyRemoteDelta
    rw [hopen]
    rfl
  rw [hw, hd]
  exact ⟨rfl, rfl, rfl, rfl, rfl⟩

/-- Witness for C4: a commit that creates one task on an initially empty
concrete store. -/
theorem materialize_fresh_after_commit_witness :
    materialize { isOpen := true, records := [], txn := none, listeners := [], nextLid := 0 } =
      sortTasks [] ∧
    (applyRemoteDelta { isOpen := true, records := [], txn := none, listeners := [], nextLid := 0 }
      [{ id := 1, description := "buy milk", isComplete := false, createdAt := 0 }]).records =
      [{ id := 1, description := "buy milk", isComplete := false, createdAt := 0 }] ∧
    materialize (applyRemoteDelta { isOpen := true, records := [], txn := none, listeners := [], nextLid := 0 }
      [{ id := 1, description := "buy milk", isComplete := false, createdAt := 0 }]) =
      sortTasks [{ id := 1, description := "buy milk", isComplete := false, createdAt := 0 }] ∧
    (write { isOpen := true, records := [], txn := none, listeners := [], nextLid := 0 }
      [.mutate (.create { id := 1, description := "buy milk", isComplete := false, createdAt := 0 })]).2.records =
      Option.getD (Store.txn { isOpen := true, records := [], txn := some [{ id := 1, description := "buy milk", isComplete := false, createdAt := 0 }], listeners := [], nextLid := 0 }) [] ∧
    materialize (write { isOpen := true, records := [], txn := none, listeners := [], nextLid := 0 }
      [.mutate (.create { id := 1, description := "buy milk", isComplete := false, createdAt := 0 })]).2 =
      sortTasks (Option.getD (Store.txn { isOpen := true, records := [], txn := some [{ id := 1, description := "buy milk", isComplete := false, createdAt := 0 }], listeners := [], nextLid := 0 }) []) :=
  materialize_fresh_after_commit _ _ _ _ rfl rfl rfl

/-- C6: committing a transaction that deletes a task makes any prior handle to
that record fail with `InvalidHandleError`, shrinks the materialized
collection by exactly one element, and makes every registered listener fire
exactly once for this commit. -/
theorem delete_commit_scenario (s : Store) (r : TaskRec) (p : Nat)
    (hopen : s.isOpen = true) (hno : s.txn = none)
    (hnd : (s.records.map TaskRec.id).Nodup)
    (hmem : r ∈ s.records) (hid : r.id = p) :
    (write s [.mutate (.delete p)]).1 = .ok () ∧
    readRecord (write s [.mutate (.delete p)]).2 p = .error .InvalidHandleError ∧
    (materialize (write s [.mutate (.delete p)]).2).length + 1 =
      (materialize s).length ∧
    (write s [.mutate (.delete p)]).2.listeners =
      s.listeners.map (fun l =>
        { l with log := l.log ++ [materialize (write s [.mutate (.delete p)]).2] }) := by
  have hany : s.records.any (fun x => x.id = p) = true :=
    List.any_eq_true.mpr ⟨r, hmem, by simp [hid]⟩
  have hrb : runBody { s with txn := some s.records } [.mutate (.delete p)] =
      .ok { s with txn := some (s.records.filter (fun x => x.id ≠ p)) } := by
    unfold runBody applyMutation deleteRecord
    simp only [hany, if_true]
    rfl
  have hw : write s [.mutate (.delete p)] =
      (.ok (), notifyCommit s (s.records.filter (fun x => x.id ≠ p))) := by
    unfold write
    rw [hopen] at hrb
    rw [hopen, hno, hrb]
    rfl
  have hlen : (s.records.filter (fun x => x.id ≠ p)).length + 1 = s.records.length :=
    length_filter_erase s.records r p hnd hmem hid
  have hne : sortTasks (s.records.filter (fun x => x.id ≠ p)) ≠ materialize s := by
    intro hcontra
    have hl := congrArg List.length hcontra
    unfold materialize sortTasks at hl
    rw [(List.perm_insertionSort taskLE _).length_eq,
      (List.perm_insertionSort taskLE _).length_eq] at hl
    omega
  have hnc : notifyCommit s (s.records.filter (fun x => x.id ≠ p)) =
      { s with
        records := s.records.filter (fun x => x.id ≠ p)
        listeners := s.listeners.map (fun l =>
          { l with log := l.log ++ [sortTasks (s.records.filter (fun x => x.id ≠ p))] }) } := by
    unfold notifyCommit
    rw [if_neg hne]
  have hfind : (s.records.filter (fun x => x.id ≠ p)).find?
      (fun x => x.id = p) = none := by
    rw [List.find?_eq_none]
    intro x hx
    have := (List.mem_filter.mp hx).2
    simpa using this
  have hread : readRecord (notifyCommit s (s.records.filter (fun x => x.id ≠ p))) p =
      .error .InvalidHandleError := by
    unfold readRecord
    have hio : (notifyCommit s (s.records.filter (fun x => x.id ≠ p))).isOpen
        = s.isOpen := rfl
    have hrc : (notifyCommit s (s.records.filter (fun x => x.id ≠ p))).records
        = s.records.filter (fun x => x.id ≠ p) := rfl
    have htf : ¬ (true = false) := by decide
    rw [hio, hopen, if_neg htf, hrc, hfind]
  have hmlen : (materialize (notifyCommit s (s.records.filter (fun x => x.id ≠ p)))).length
      + 1 = (materialize s).length := by
    have h1 : materialize (notifyCommit s (s.records.filter (fun x => x.id ≠ p))) =
        sortTasks (s.records.filter (fun x => x.id ≠ p)) := rfl
    rw [h1]
    unfold materialize sortTasks
    rw [(List.perm_insertionSort taskLE _).length_eq,
      (List.perm_insertionSort taskLE _).length_eq]
    exact hlen
  have hlis : (notifyCommit s (s.records.filter (fun x => x.id ≠ p))).listeners =
      s.listeners.map (fun l =>
        { l with log := l.log ++
          [materialize (notifyCommit s (s.records.filter (fun x => x.id ≠ p)))] }) := by
    rw [hnc]
    rfl
  rw [hw]
  exact ⟨rfl, hread, hmlen, hlis⟩

/-- Witness for C6 on a concrete one-task store with one listener. -/
theorem delete_commit_scenario_witness :
    (write { isOpen := true, records := [{ id := 1, description := "buy milk", isComplete := false, createdAt := 0 }], txn := none, listeners := [{ lid := 0, log := [[{ id := 1, description := "buy milk", isComplete := false, createdAt := 0 }]] }], nextLid := 1 }
      [.mutate (.delete 1)]).1 = .ok () ∧
    readRecord (write { isOpen := true, records := [{ id := 1, description := "buy milk", isComplete := false, createdAt := 0 }], txn := none, listeners := [{ lid := 0, log := [[{ id := 1, description := "buy milk", isComplete := false, createdAt := 0 }]] }], nextLid := 1 }
      [.mutate (.delete 1)]).2 1 = .error .InvalidHandleError ∧
    (materialize (write { isOpen := true, records := [{ id := 1, description := "buy milk", isComplete := false, createdAt := 0 }], txn := none, listeners := [{ lid := 0, log := [[{ id := 1, description := "buy milk", isComplete := false, createdAt := 0 }]] }], nextLid := 1 }
      [.mutate (.delete 1)]).2).length + 1 =
      (materialize { isOpen := true, records := [{ id := 1, description := "buy milk", isComplete := false, createdAt := 0 }], txn := none, listeners := [{ lid := 0, log := [[{ id := 1, description := "buy milk", isComplete := false, createdAt := 0 }]] }], nextLid := 1 }).length ∧
    (write { isOpen := true, records := [{ id := 1, description := "buy milk", isComplete := false, createdAt := 0 }], txn := none, listeners := [{ lid := 0, log := [[{ id := 1, description := "buy milk", isComplete := false, createdAt := 0 }]] }], nextLid := 1 }
      [.mutate (.delete 1)]).2.listeners =
      List.map (fun l : Listener =>
        { l with log := l.log ++ [materialize (write { isOpen := true, records := [{ id := 1, description := "buy milk", isComplete := false, createdAt := 0 }], txn := none, listeners := [{ lid := 0, log := [[{ id := 1, description := "buy milk", isComplete := false, createdAt := 0 }]] }], nextLid := 1 }
          [.mutate (.delete 1)]).2] })
        [{ lid := 0, log := [[{ id := 1, description := "buy milk", isComplete := false, createdAt := 0 }]] }] :=
  delete_commit_scenario _ _ 1 rfl rfl (by decide) (List.mem_singleton.mpr rfl) rfl

/-- C7: toggling `isComplete` of an incomplete task in a new transaction and
committing makes the same handle read `isComplete = true`, leaves the
collection length unchanged, and leaves the materialized order (the sequence
of primary keys) unchanged, since the sort key `createdAt` is untouched. -/
theorem toggle_commit_scenario (s : Store) (r : TaskRec) (p : Nat)
    (hopen : s.isOpen = true) (hno : s.txn = none)
    (hfind : s.records.find? (fun x => x.id = p) = some r)
    (hfalse : r.isComplete = false) :
    (write s [.mutate (.update p (.setIsComplete true))]).1 = .ok () ∧
    (readRecord (write s [.mutate (.update p (.setIsComplete true))]).2 p).map
      TaskRec.isComplete = .ok true ∧
    (materialize (write s [.mutate (.update p (.setIsComplete true))]).2).length =
      (materialize s).length ∧
    (materialize (write s [.mutate (.update p (.setIsComplete true))]).2).map
      TaskRec.id = (materialize s).map TaskRec.id := by
  have hmem : r ∈ s.records := List.mem_of_find?_eq_some hfind
  have hrid : r.id = p := by simpa using List.find?_some hfind
  have hany : s.records.any (fun x => x.id = p) = true :=
    List.any_eq_true.mpr ⟨r, hmem, by simp [hrid]⟩
  have hg : ∀ x : TaskRec,
      ((if x.id = p then applyFieldWrite (.setIsComplete true) x else x).createdAt
        = x.createdAt) ∧
      ((if x.id = p then applyFieldWrite (.setIsComplete true) x else x).id = x.id) := by
    intro x
    split_ifs with h
    · exact ⟨rfl, rfl⟩
    · exact ⟨rfl, rfl⟩
  have hrb : runBody { s with txn := some s.records }
      [.mutate (.update p (.setIsComplete true))] =
      .ok { s with txn := some (s.records.map (fun x =>
        if x.id = p then applyFieldWrite (.setIsComplete true) x else x)) } := by
    unfold runBody applyMutation updateRecord
    simp only [hany, if_true]
    rfl
  have hw : write s [.mutate (.update p (.setIsComplete true))] =
      (.ok (), notifyCommit s (s.records.map (fun x =>
        if x.id = p then applyFieldWrite (.setIsComplete true) x else x))) := by
    unfold write
    rw [hopen] at hrb
    rw [hopen, hno, hrb]
    rfl
  have hmat : materialize (notifyCommit s (s.records.map (fun x =>
      if x.id = p then applyFieldWrite (.setIsComplete true) x else x))) =
      (materialize s).map (fun x =>
        if x.id = p then applyFieldWrite (.setIsComplete true) x else x) := by
    unfold materialize notifyCommit
    exact sortTasks_map_congr _ hg s.records
  have hfm : (s.records.map (fun x =>
      if x.id = p then applyFieldWrite (.setIsComplete true) x else x)).find?
      (fun x => x.id = p) =
      some (applyFieldWrite (.setIsComplete true) r) := by
    rw [List.find?_map]
    have hpred : ((fun x : TaskRec => decide (x.id = p)) ∘ (fun x =>
        if x.id = p then applyFieldWrite (.setIsComplete true) x else x)) =
        fun x : TaskRec => decide (x.id = p) := by
      funext x
      simp only [Function.comp_apply, (hg x).2]
    rw [hpred, hfind]
    simp [hrid]
  have hread : (readRecord (notifyCommit s (s.records.map (fun x =>
      if x.id = p then applyFieldWrite (.setIsComplete true) x else x))) p).map
      TaskRec.isComplete = .ok true := by
    unfold readRecord
    have hio : (notifyCommit s (s.records.map (fun x =>
        if x.id = p then applyFieldWrite (.setIsComplete true) x else x))).isOpen
        = s.isOpen := rfl
    have hrc : (notifyCommit s (s.records.map (fun x =>
        if x.id = p then applyFieldWrite (.setIsComplete true) x else x))).records
        = s.records.map (fun x =>
          if x.id = p then applyFieldWrite (.setIsComplete true) x else x) := rfl
    have htf : ¬ (true = false) := by decide
    rw [hio, hopen, if_neg htf, hrc, hfm]
    rfl
  have hlen : (materialize (notifyCommit s (s.records.map (fun x =>
      if x.id = p then applyFieldWrite (.setIsComplete true) x else x)))).length =
      (materialize s).length := by
    rw [hmat, List.length_map]
  have hids : (materialize (notifyCommit s (s.records.map (fun x =>
      if x.id = p then applyFieldWrite (.setIsComplete true) x else x)))).map
      TaskRec.id = (materialize s).map TaskRec.id := by
    rw [hmat, List.map_map]
    have hcomp : (TaskRec.id ∘ fun x =>
        if x.id = p then applyFieldWrite (.setIsComplete true) x else x) =
        TaskRec.id := by
      funext x
      exact (hg x).2
    rw [hcomp]
  rw [hw]
  exact ⟨rfl, hread, hlen, hids⟩

/-- Witness for C7 on a concrete store holding one incomplete task. -/
theorem toggle_commit_scenario_witness :
    (write { isOpen := true, records := [{ id := 1, description := "buy milk", isComplete := false, createdAt := 0 }], txn := none, listeners := [], nextLid := 0 }
      [.mutate (.update 1 (.setIsComplete true))]).1 = .ok () ∧
    (readRecord (write { isOpen := true, records := [{ id := 1, description := "buy milk", isComplete := false, createdAt := 0 }], txn := none, listeners := [], nextLid := 0 }
      [.mutate (.update 1 (.setIsComplete true))]).2 1).map TaskRec.isComplete = .ok true ∧
    (materialize (write { isOpen := true, records := [{ id := 1, description := "buy milk", isComplete := false, createdAt := 0 }], txn := none, listeners := [], nextLid := 0 }
      [.mutate (.update 1 (.setIsComplete true))]).2).length =
      (materialize { isOpen := true, records := [{ id := 1, description := "buy milk", isComplete := false, createdAt := 0 }], txn := none, listeners := [], nextLid := 0 }).length ∧
    (materialize (write { isOpen := true, records := [{ id := 1, description := "buy milk", isComplete := false, createdAt := 0 }], txn := none, listeners := [], nextLid := 0 }
      [.mutate (.update 1 (.setIsComplete true))]).2).map TaskRec.id =
      (materialize { isOpen := true, records := [{ id := 1, description := "buy milk", isComplete := false, createdAt := 0 }], txn := none, listeners := [], nextLid := 0 }).map TaskRec.id :=
  toggle_commit_scenario _ _ 1 rfl rfl rfl rfl

/-- Over any sequence of commits fed through the notification pipeline, a
registered listener's delivery log grows by exactly the materializations of
the commits that changed the materialized result, in commit order. -/
theorem runDeltas_listener_log (cs : List (List TaskRec)) :
    ∀ (t : Store) (i : Nat) (L : List (List TaskRec)),
    t.isOpen = true →
    t.listeners.find? (fun l => l.lid = i) = some { lid := i, log := L } →
    (runDeltas t cs).listeners.find? (fun l => l.lid = i) =
      some { lid := i, log := L ++ changedMats (materialize t) cs } := by
  induction cs with
  | nil =>
    intro t i L _ hfind
    simpa [runDeltas, changedMats] using hfind
  | cons c cs ih =>
    intro t i L hopen hfind
    have hfold : runDeltas t (c :: cs) = runDeltas (notifyCommit t c) cs := by
      unfold runDeltas
      rw [List.foldl_cons]
      unfold applyRemoteDelta
      rw [hopen]
      rfl
    have hopen2 : (notifyCommit t c).isOpen = true := hopen
    have hmat2 : materialize (notifyCommit t c) = sortTasks c := rfl
    rw [hfold]
    by_cases hch : sortTasks c = materialize t
    · have hls : (notifyCommit t c).listeners = t.listeners := by
        unfold notifyCommit
        rw [if_pos hch]
      have hstep := ih (notifyCommit t c) i L hopen2 (by rw [hls]; exact hfind)
      rw [hstep, hmat2, hch]
      have hcm : changedMats (materialize t) (c :: cs) =
          changedMats (materialize t) cs := by
        have heq : changedMats (materialize t) (c :: cs) =
            if sortTasks c = materialize t then changedMats (materialize t) cs
            else sortTasks c :: changedMats (sortTasks c) cs := rfl
        rw [heq, if_pos hch]
      rw [hcm]
    · have hls : (notifyCommit t c).listeners =
          t.listeners.map (fun l => { l with log := l.log ++ [sortTasks c] }) := by
        unfold notifyCommit
        rw [if_neg hch]
      have hfind2 : (notifyCommit t c).listeners.find? (fun l => l.lid = i) =
          some { lid := i, log := L ++ [sortTasks c] } := by
        rw [hls, List.find?_map]
        have hpred : ((fun l : Listener => decide (l.lid = i)) ∘
            (fun l : Listener => { l with log := l.log ++ [sortTasks c] })) =
            fun l : Listener => decide (l.lid = i) := by
          funext l
          rfl
        rw [hpred, hfind]
        rfl
      have hstep := ih (notifyCommit t c) i (L ++ [sortTasks c]) hopen2 hfind2
      rw [hstep, hmat2]
      have hcm : changedMats (materialize t) (c :: cs) =
          sortTasks c :: changedMats (sortTasks c) cs := by
        have heq : changedMats (materialize t) (c :: cs) =
            if sortTasks c = materialize t then changedMats (materialize t) cs
            else sortTasks c :: changedMats (sortTasks c) cs := rfl
        rw [heq, if_neg hch]
      rw [hcm, List.append_assoc]
      rfl

/-- C5: a listener registered on the collection is invoked once at
registration with the current materialization, and thereafter exactly once per
commit that changes the materialized result, receiving the fresh
materializations in commit order — never reordered, duplicated or skipped. -/
theorem listener_notification_order (s : Store) (cs : List (List TaskRec))
    (hopen : s.isOpen = true)
    (hfresh : ∀ l ∈ s.listeners, l.lid ≠ s.nextLid) :
    (runDeltas (addListener s).2 cs).listeners.find?
        (fun l => l.lid = (addListener s).1) =
      some { lid := s.nextLid,
             log := materialize s :: changedMats (materialize s) cs } := by
  have hopen2 : (addListener s).2.isOpen = true := hopen
  have hfind : (addListener s).2.listeners.find? (fun l => l.lid = s.nextLid) =
      some { lid := s.nextLid, log := [materialize s] } := by
    show (s.listeners ++ [({ lid := s.nextLid, log := [materialize s] } : Listener)]).find?
      (fun l => l.lid = s.nextLid) =
      some { lid := s.nextLid, log := [materialize s] }
    rw [List.find?_append]
    have h1 : s.listeners.find? (fun l => l.lid = s.nextLid) = none := by
      rw [List.find?_eq_none]
      intro x hx
      simpa using hfresh x hx
    rw [h1]
    simp [List.find?]
  have hmm : materialize (addListener s).2 = materialize s := rfl
  have hres := runDeltas_listener_log cs (addListener s).2 s.nextLid
    [materialize s] hopen2 hfind
  rw [hmm] at hres
  exact hres

/-- Witness for C5: an empty concrete store, one registered listener, and
three remote commits of which the middle one does not change the result; the
log is the registration snapshot plus one entry per changing commit. -/
theorem listener_notification_order_witness :
    (runDeltas (addListener { isOpen := true, records := [], txn := none, listeners := [], nextLid := 0 }).2
        [[{ id := 1, description := "buy milk", isComplete := false, createdAt := 0 }],
         [{ id := 1, description := "buy milk", isComplete := false, createdAt := 0 }],
         []]).listeners.find?
        (fun l => l.lid = (addListener { isOpen := true, records := [], txn := none, listeners := [], nextLid := 0 }).1) =
      some { lid := 0,
             log := [[], [{ id := 1, description := "buy milk", isComplete := false, createdAt := 0 }], []] } := by
  have h := listener_notification_order
    { isOpen := true, records := [], txn := none, listeners := [], nextLid := 0 }
    [[{ id := 1, description := "buy milk", isComplete := false, createdAt := 0 }],
     [{ id := 1, description := "buy milk", isComplete := false, createdAt := 0 }],
     []] rfl (by intro l hl; cases hl)
  exact h

end FavesRealm
